import Mathlib

/-!
Shallow embedding of the NaniDAO dao-delegate Cloud Function (src/index.js).

Modelling conventions:
- JavaScript values produced by JSON.parse are modelled by the inductive
  type JSVal; JSON.parse itself (an external runtime builtin) is modelled
  by the executable parser jsonParse below, and JavaScript truthiness by
  JSVal.truthy.
- Hex byte strings (the 0x-prefixed strings produced by the viem helpers
  toHex, pad and concat) are modelled as lists of hex-digit values
  (each < 16); two digits form one byte, so a 32-byte value is a list of
  64 digits.  viem concat is list append, and viem pad is padHex below,
  which (like viem) throws a size-exceeded error when the value does not
  fit the requested size.
- Thrown JavaScript exceptions are modelled with Except JsError.
- External collaborators (the oracle HTTP endpoint, the chain RPC read,
  the GCP signing capability, and database insert failures) are supplied
  as an Env record of abstract result functions; the code under src/ is
  translated around them.
-/

/-- JavaScript exception classes thrown (or propagated) by the code. -/
inductive JsError where
  | referenceError
  | unsupportedChain
  | appNotFound
  | sizeExceedsPadding
  | rpc
  | sign
  | store
  | db
  | evalFormat
deriving DecidableEq

/-- Model of a JavaScript value as produced by JSON.parse: numbers are
kept as decimal mantissa times ten to the power of the exponent. -/
inductive JSVal where
  | null
  | bool (b : Bool)
  | num (m : Int) (e : Int)
  | str (s : String)
  | arr (elems : List JSVal)
  | obj (fields : List (String × JSVal))

/-- The empty string constant. -/
def emptyStr : String := ""

/-- Model of the JavaScript toLowerCase method on the ASCII strings of
this code, written over the character list so that it reduces in the
kernel. -/
def jsToLower (s : String) : String := String.mk (s.toList.map Char.toLower)

/-- JavaScript truthiness of a value (Boolean coercion). -/
def JSVal.truthy : JSVal → Bool
  | JSVal.null => false
  | JSVal.bool b => b
  | JSVal.num m _ => m != 0
  | JSVal.str s => s != emptyStr
  | JSVal.arr _ => true
  | JSVal.obj _ => true

/-- JavaScript property access on a parsed value: objects yield the value
of the last binding of the key (as JSON.parse keeps the last duplicate),
every other value yields undefined, modelled as none. -/
def JSVal.getField : JSVal → String → Option JSVal
  | JSVal.obj fields, k => (fields.reverse.find? (fun f => f.fst == k)).map (fun f => f.snd)
  | _, _ => none

/-- Truthiness of a possibly-undefined JavaScript value. -/
def jsTruthy : Option JSVal → Bool
  | none => false
  | some v => v.truthy

/-- Value of a hexadecimal digit character, if any. -/
def hexCharVal (c : Char) : Option Nat :=
  if ('0' ≤ c ∧ c ≤ '9') then some (c.toNat - 48)
  else if ('a' ≤ c ∧ c ≤ 'f') then some (c.toNat - 87)
  else if ('A' ≤ c ∧ c ≤ 'F') then some (c.toNat - 55)
  else none

/-- Value of a decimal digit character, if any. -/
def digitVal (c : Char) : Option Nat :=
  if ('0' ≤ c ∧ c ≤ '9') then some (c.toNat - 48) else none

/-- Skip JSON whitespace. -/
def pWs : List Char → List Char
  | [] => []
  | c :: cs => if c = ' ' ∨ c = '\t' ∨ c = '\n' ∨ c = '\r' then pWs cs else c :: cs

/-- Translation of a JSON string escape character. -/
def escChar (c : Char) : Option Char :=
  if c = '"' then some '"'
  else if c = '\\' then some '\\'
  else if c = '/' then some '/'
  else if c = 'b' then some (Char.ofNat 8)
  else if c = 'f' then some (Char.ofNat 12)
  else if c = 'n' then some '\n'
  else if c = 'r' then some '\r'
  else if c = 't' then some '\t'
  else none

/-- Parse the body of a JSON string after the opening quote, returning
the decoded characters and the input after the closing quote. -/
def pStringAux : List Char → Option (List Char × List Char)
  | [] => none
  | '"' :: cs => some ([], cs)
  | '\\' :: 'u' :: h1 :: h2 :: h3 :: h4 :: cs =>
    match hexCharVal h1, hexCharVal h2, hexCharVal h3, hexCharVal h4, pStringAux cs with
    | some a, some b, some c, some d, some (s, rest) =>
      some (Char.ofNat (((a * 16 + b) * 16 + c) * 16 + d) :: s, rest)
    | _, _, _, _, _ => none
  | '\\' :: e :: cs =>
    match escChar e, pStringAux cs with
    | some c, some (s, rest) => some (c :: s, rest)
    | _, _ => none
  | c :: cs =>
    if c.toNat < 32 then none
    else
      match pStringAux cs with
      | some (s, rest) => some (c :: s, rest)
      | none => none

/-- Parse a maximal run of decimal digits. -/
def pDigits : List Char → List Nat × List Char
  | [] => ([], [])
  | c :: cs =>
    match digitVal c with
    | some d =>
      let r := pDigits cs
      (d :: r.fst, r.snd)
    | none => ([], c :: cs)

/-- Value of a big-endian list of decimal digits. -/
def digitsToNat (ds : List Nat) : Nat := ds.foldl (fun a d => 10 * a + d) 0

/-- Parse an optional JSON fraction part. -/
def pFrac : List Char → Option (List Nat × List Char)
  | '.' :: rest =>
    let r := pDigits rest
    if r.fst.isEmpty then none else some (r.fst, r.snd)
  | cs => some ([], cs)

/-- Parse an optional JSON exponent part, returning the signed exponent. -/
def pExpPart : List Char → Option (Int × List Char)
  | [] => some (0, [])
  | c :: rest =>
    if c = 'e' ∨ c = 'E' then
      let sr :=
        match rest with
        | '+' :: r2 => ((1 : Int), r2)
        | '-' :: r2 => ((-1 : Int), r2)
        | r2 => ((1 : Int), r2)
      let r := pDigits sr.snd
      if r.fst.isEmpty then none
      else some (sr.fst * Int.ofNat (digitsToNat r.fst), r.snd)
    else some (0, c :: rest)

/-- Parse a JSON number (strict grammar: no leading zeros, mandatory
digits around the dot and after the exponent marker). -/
def pNum (cs : List Char) : Option (JSVal × List Char) :=
  let sc :=
    match cs with
    | '-' :: rest => (true, rest)
    | _ => (false, cs)
  let ir := pDigits sc.snd
  if ir.fst.isEmpty then none
  else if 1 < ir.fst.length ∧ ir.fst.headD 1 = 0 then none
  else
    match pFrac ir.snd with
    | none => none
    | some (fracs, cs3) =>
      match pExpPart cs3 with
      | none => none
      | some (ex, cs4) =>
        let mNat := digitsToNat (ir.fst ++ fracs)
        let m : Int := if sc.fst then -(Int.ofNat mNat) else Int.ofNat mNat
        some (JSVal.num m (ex - Int.ofNat fracs.length), cs4)

/-- Fuel-indexed recursive-descent parser for a JSON value; the remainder
of an array or object after a comma is parsed by re-prefixing the open
bracket, keeping the recursion structural in the fuel. -/
def pVal : Nat → List Char → Option (JSVal × List Char)
  | 0, _ => none
  | fuel + 1, cs0 =>
    match pWs cs0 with
    | 'n' :: 'u' :: 'l' :: 'l' :: rest => some (JSVal.null, rest)
    | 't' :: 'r' :: 'u' :: 'e' :: rest => some (JSVal.bool true, rest)
    | 'f' :: 'a' :: 'l' :: 's' :: 'e' :: rest => some (JSVal.bool false, rest)
    | '"' :: rest =>
      match pStringAux rest with
      | some (s, r) => some (JSVal.str (String.mk s), r)
      | none => none
    | '[' :: rest =>
      match pWs rest with
      | ']' :: r2 => some (JSVal.arr [], r2)
      | cs2 =>
        match pVal fuel cs2 with
        | none => none
        | some (v, r1) =>
          match pWs r1 with
          | ',' :: r2 =>
            match pWs r2 with
            | ']' :: _ => none
            | cs3 =>
              match pVal fuel ('[' :: cs3) with
              | some (JSVal.arr vs, r3) => some (JSVal.arr (v :: vs), r3)
              | _ => none
          | ']' :: r2 => some (JSVal.arr [v], r2)
          | _ => none
    | '\x7b' :: rest =>
      match pWs rest with
      | '\x7d' :: r2 => some (JSVal.obj [], r2)
      | '"' :: rest2 =>
        match pStringAux rest2 with
        | none => none
        | some (k, r1) =>
          match pWs r1 with
          | ':' :: r2 =>
            match pVal fuel r2 with
            | none => none
            | some (v, r3) =>
              match pWs r3 with
              | ',' :: r4 =>
                match pWs r4 with
                | '"' :: r5 =>
                  match pVal fuel ('\x7b' :: '"' :: r5) with
                  | some (JSVal.obj fs, r6) => some (JSVal.obj ((String.mk k, v) :: fs), r6)
                  | _ => none
                | _ => none
              | '\x7d' :: r4 => some (JSVal.obj [(String.mk k, v)], r4)
              | _ => none
          | _ => none
      | _ => none
    | cs => pNum cs

/-- Model of the JavaScript builtin JSON.parse: parse one value and
require only trailing whitespace; on failure the model returns none
where the builtin throws (the caller in src/index.js catches the throw
and substitutes null, which is handled at the call sites below). -/
def jsonParse (s : String) : Option JSVal :=
  match pVal (2 * s.length + 2) s.toList with
  | some (v, rest) =>
    match pWs rest with
    | [] => some v
    | _ => none
  | none => none

/-- The empty additional instruction of the first oracle attempt
(src/index.js line 176, default parameter). -/
def instr1 : String := ""

/-- The strengthened instruction of the second oracle attempt
(src/index.js lines 207-209). -/
def instr2 : String := "You must respond with ONLY valid JSON, no other text or explanation."

/-- The strengthened instruction of the third oracle attempt
(src/index.js lines 213-215). -/
def instr3 : String := "CRITICAL: Respond with ONLY a JSON object in the exact format \x7b\"vote\": boolean, \"reason\": \"string\"\x7d - no other text whatsoever."

/-- One oracle attempt (src/index.js makeRequest, lines 176-200): the
oracle is an abstract map from the additional instruction to the raw
response body; the attempt returns JSON.parse of the body, or null
(modelled as none) when parsing throws. -/
def makeRequest (oracle : String → String) (instr : String) : Option JSVal :=
  jsonParse (oracle instr)

/-- The JavaScript test at the bottom of each attempt, if (result):
a null result or a parsed value that is falsy triggers the next
attempt, so the attempt yields a value only when it is truthy. -/
def attemptValue (r : Option JSVal) : Option JSVal :=
  match r with
  | some v => if v.truthy then some v else none
  | none => none

/-- Translation of getNaniVote (src/index.js lines 175-219); the second
component records the additional instructions of the attempts that were
actually sent, in order. -/
def getNaniVote (oracle : String → String) : Except JsError JSVal × List String :=
  match attemptValue (makeRequest oracle instr1) with
  | some v => (Except.ok v, [instr1])
  | none =>
    match attemptValue (makeRequest oracle instr2) with
    | some v => (Except.ok v, [instr1, instr2])
    | none =>
      match attemptValue (makeRequest oracle instr3) with
      | some v => (Except.ok v, [instr1, instr2, instr3])
      | none => (Except.error JsError.evalFormat, [instr1, instr2, instr3])

/-- Hex data (the 0x-prefixed strings of viem) as big-endian lists of
hex-digit values; two digits form one byte. -/
abbrev Hex := List Nat

/-- Big-endian value of a list of hex digits. -/
def fromHexDigits (ds : Hex) : Nat := ds.foldl (fun acc d => 16 * acc + d) 0

/-- Fuel-indexed minimal hex representation (helper for toHexDigits). -/
def toHexDigitsAux : Nat → Nat → List Nat
  | 0, _ => []
  | fuel + 1, n => if n < 16 then [n] else toHexDigitsAux fuel (n / 16) ++ [n % 16]

/-- Model of viem toHex on a bigint: the minimal big-endian hex digits
of the value (one digit 0 for zero). -/
def toHexDigits (n : Nat) : Hex := toHexDigitsAux (n + 1) n

/-- Model of viem pad with a size option: left-pad the hex data with
zero digits to the given byte size, throwing a size-exceeded error when
the data is larger (viem SizeExceedsPaddingSizeError). -/
def padHex (ds : Hex) (size : Nat) : Except JsError Hex :=
  if 2 * size < ds.length then Except.error JsError.sizeExceedsPadding
  else Except.ok (List.replicate (2 * size - ds.length) 0 ++ ds)

/-- The logical user operation built from a proposal row
(src/index.js lines 222-242). -/
structure UserOperation where
  sender : String
  nonce : Nat
  callData : String
  verificationGasLimit : Nat
  callGasLimit : Nat
  preVerificationGas : Nat
  maxFeePerGas : Nat
  maxPriorityFeePerGas : Nat
  factory : Option Hex
  factoryData : Option Hex
  paymaster : Option Hex
  paymasterPostOpGasLimit : Option Nat
  paymasterVerificationGasLimit : Option Nat
  paymasterData : Option Hex
deriving DecidableEq

/-- Translation of packInitCode (src/index.js lines 338-345). -/
def packInitCode (op : UserOperation) : Hex :=
  match op.factory with
  | some f => f ++ op.factoryData.getD []
  | none => []

/-- Translation of packAccountGasLimits (src/index.js lines 347-352):
16-byte padded verificationGasLimit followed by 16-byte padded
callGasLimit; a pad failure propagates as a thrown error. -/
def packAccountGasLimits (op : UserOperation) : Except JsError Hex := do
  let a ← padHex (toHexDigits op.verificationGasLimit) 16
  let b ← padHex (toHexDigits op.callGasLimit) 16
  Except.ok (a ++ b)

/-- Translation of packGasLimits (src/index.js lines 354-359):
16-byte padded maxPriorityFeePerGas followed by 16-byte padded
maxFeePerGas. -/
def packGasLimits (op : UserOperation) : Except JsError Hex := do
  let a ← padHex (toHexDigits op.maxPriorityFeePerGas) 16
  let b ← padHex (toHexDigits op.maxFeePerGas) 16
  Except.ok (a ++ b)

/-- Translation of packPaymasterAndData (src/index.js lines 361-374). -/
def packPaymasterAndData (op : UserOperation) : Except JsError Hex :=
  match op.paymaster with
  | none => Except.ok []
  | some pm => do
    let a ← padHex (toHexDigits (op.paymasterVerificationGasLimit.getD 0)) 16
    let b ← padHex (toHexDigits (op.paymasterPostOpGasLimit.getD 0)) 16
    Except.ok (pm ++ a ++ b ++ op.paymasterData.getD [])

/-- The target account constant TARGET_SENDER (src/index.js line 118). -/
def targetSender : String := "0x0000000000001d8a2e7bf6bc369525a2654aa298"

/-- The signer address constant AI_SIGNER (src/index.js line 119). -/
def aiSigner : String := "0x466d3E0E6D661d6E7626e9dea93c460BD4e15B40"

/-- A static registry entry (src/index.js lines 289-328). -/
structure ValidatorApp where
  id : String
  address : String
  title : String
  icon : String
  description : String
deriving DecidableEq

/-- The id of the remote validator registry entry. -/
def rvId : String := "remote-validator"

/-- The address of the remote validator registry entry. -/
def rvAddress : String := "0x0000000000159aAFCA7067005E28665a28B5B4cf"

/-- The static validatorApps registry (src/index.js lines 289-328). -/
def validatorApps : List ValidatorApp := [
  { id := rvId,
    address := rvAddress,
    title := "Scheduler",
    icon := "/apps/remote-validator.png",
    description := "Set specific days and times for your transactions to be processed" },
  { id := "recovery-validator",
    address := "0x000000000000a78fb292191473e51dd34700c43d",
    title := "Recovery",
    icon := "/apps/recovery-validator.png",
    description := "Set backup roles to recover your account in case of an emergency" },
  { id := "joint-validator",
    address := "0x000000000000D3D2b2980A7BC509018E4d88e947",
    title := "Joint Ownership",
    icon := "/apps/joint-validator.webp",
    description := "Add joint owners to your smart account with full concurrent rights" },
  { id := "payment-validator",
    address := "0x00000000000032CD4FAE890F90e61e6864e44aa7",
    title := "Payment Plans",
    icon := "/apps/payment-validator.webp",
    description := "Add payment plans and delegate token transfer permissions" },
  { id := "permit-validator",
    address := "0x000000000000ab6c9FF3ed50AC4BAF2a20890835",
    title := "Custom Permissions",
    icon := "/apps/permit-validator.webp",
    description := "Add arbitrary permissions within the Permit structure" }]

/-- Translation of getValidator (src/index.js lines 330-336): linear
lookup by id, throwing when the id is missing. -/
def getValidator (id : String) : Except JsError ValidatorApp :=
  match validatorApps.find? (fun app => app.id == id) with
  | some app => Except.ok app
  | none => Except.error JsError.appNotFound

/-- Numeric value of a 0x-prefixed hex address string (non-hex
characters such as the x of the prefix contribute nothing). -/
def hexStrToNat (s : String) : Nat :=
  s.toList.foldl (fun acc c =>
    match hexCharVal c with
    | some d => 16 * acc + d
    | none => acc) 0

/-- Modelled from the spec: getKeyFromNonce of the external package
eip-7582-utils extracts the top 24 bytes (the key) of the 256-bit
nonce, which is the nonce shifted right by 64 bits. -/
def getKeyFromNonce (nonce : Nat) : Nat := nonce / 2 ^ 64

/-- Modelled from the spec: getValidatorKey of the external package
eip-7582-utils derives the 24-byte module key of a validator address,
the 20 address bytes occupying the top of the 24-byte key. -/
def getValidatorKey (address : String) : Nat := hexStrToNat address * 2 ^ 32

/-- An EIP-712 signing domain (src/index.js getDomain result shape). -/
structure Eip712Domain where
  name : String
  version : String
  chainId : Nat
  verifyingContract : String
deriving DecidableEq

/-- A viem chain object, reduced to the chain id used by the code. -/
structure ChainDef where
  id : Nat
deriving DecidableEq

/-- The mainnet chain constant of viem. -/
def mainnetChain : ChainDef := { id := 1 }

/-- The arbitrum chain constant of viem. -/
def arbitrumChain : ChainDef := { id := 42161 }

/-- The base chain constant of viem. -/
def baseChain : ChainDef := { id := 8453 }

/-- The chain identifier strings recognised by resolveChain. -/
def chainEth : String := "eth"

/-- The arbitrum chain identifier string. -/
def chainArbitrum : String := "arbitrum"

/-- The base chain identifier string. -/
def chainBase : String := "base"

/-- Translation of resolveChain (src/index.js lines 414-425): an
unsupported identifier throws. -/
def resolveChain (chain : String) : Except JsError ChainDef :=
  if jsToLower chain = chainEth then Except.ok mainnetChain
  else if jsToLower chain = chainArbitrum then Except.ok arbitrumChain
  else if jsToLower chain = chainBase then Except.ok baseChain
  else Except.error JsError.unsupportedChain

/-- A proposal row as read from the proposals table (src/index.js
usage in signProposal and the handler loop); hex-string columns are
modelled as hex digit lists and numeric columns as naturals. -/
structure Proposal where
  sender : String
  nonce : Nat
  callData : String
  verificationGasLimit : Nat
  callGasLimit : Nat
  preVerificationGas : Nat
  maxFeePerGas : Nat
  maxPriorityFeePerGas : Nat
  factory : Option Hex
  factoryData : Option Hex
  paymaster : Option Hex
  paymasterVerificationGasLimit : Option Nat
  paymasterPostOpGasLimit : Option Nat
  paymasterData : Option Hex
  chain : String
  content : String
  userOpHash : String
  created_at : Nat
deriving DecidableEq

/-- The userOperation object built at the top of signProposal
(src/index.js lines 222-242). -/
def toUserOperation (p : Proposal) : UserOperation :=
  { sender := p.sender,
    nonce := p.nonce,
    callData := p.callData,
    verificationGasLimit := p.verificationGasLimit,
    callGasLimit := p.callGasLimit,
    preVerificationGas := p.preVerificationGas,
    maxFeePerGas := p.maxFeePerGas,
    maxPriorityFeePerGas := p.maxPriorityFeePerGas,
    factory := p.factory,
    factoryData := p.factoryData,
    paymaster := p.paymaster,
    paymasterPostOpGasLimit := p.paymasterPostOpGasLimit,
    paymasterVerificationGasLimit := p.paymasterVerificationGasLimit,
    paymasterData := p.paymasterData }

/-- The typed-data message signed by the account (src/index.js
lines 250-261); validUntil and validAfter are always zero. -/
structure UserOpMessage where
  sender : String
  nonce : Nat
  initCode : Hex
  callData : String
  accountGasLimits : Hex
  preVerificationGas : Nat
  gasFees : Hex
  paymasterAndData : Hex
  validUntil : Nat
  validAfter : Nat
deriving DecidableEq

/-- A row of the signatures table after the normalisation performed by
addSignature (src/index.js lines 158-164). -/
structure SigRow where
  signer : String
  account : Option String
  hash : String
  signature : String
  content : Option JSVal

/-- The argument object passed to addSignature by the handler loop. -/
structure SigInput where
  signer : String
  account : String
  hash : String
  signature : String
  reason : Option JSVal

/-- The value normalisation of addSignature (src/index.js lines
158-164): signer and hash are lowercased, a falsy account becomes the
SQL null. -/
def normalizeRow (sig : SigInput) : SigRow :=
  { signer := jsToLower sig.signer,
    account := if sig.account = emptyStr then none else some (jsToLower sig.account),
    hash := jsToLower sig.hash,
    signature := sig.signature,
    content := sig.reason }

/-- Translation of addSignature (src/index.js lines 152-173) at the
level of the signatures table: the INSERT statement has no conflict
clause and no uniqueness constraint appears anywhere in the repository,
so a successful call unconditionally appends one new row. -/
def addSignature (store : List SigRow) (sig : SigInput) : List SigRow :=
  store ++ [normalizeRow sig]

/-- The abstract environment of external collaborators: the GCP signer
address, the oracle response bodies per proposal and additional
instruction, the chain RPC domain read, the external signing
capability, and possible insert failures of the signatures table. -/
structure Env where
  accountAddress : String
  oracle : Proposal → String → String
  rpcDomain : String → ChainDef → Except JsError Eip712Domain
  signTypedData : Eip712Domain → UserOpMessage → Except JsError String
  insertErr : SigInput → Option JsError

/-- Translation of getDomain (src/index.js lines 394-412): resolve the
chain, then read the eip712Domain view of the sender contract over RPC
(the RPC read is the abstract rpcDomain of the environment). -/
def getDomain (env : Env) (sender : String) (chain : String) : Except JsError Eip712Domain := do
  let c ← resolveChain chain
  env.rpcDomain sender c

/-- Translation of the domain override block of signProposal
(src/index.js lines 263-275).  When the nonce key is nonzero and equals
the derived key of the remote-validator registry entry, the source
builds the replacement domain with chainId publicClient.chain.id, but
no publicClient variable is in scope in signProposal (the only one is
local to getDomain), so evaluating that object literal throws a
ReferenceError; any other key leaves the resolved domain unchanged. -/
def domainOverride (resolved : Eip712Domain) (nonce : Nat) : Except JsError Eip712Domain :=
  let key := getKeyFromNonce nonce
  if key = 0 then Except.ok resolved
  else do
    let app ← getValidator rvId
    if key = getValidatorKey app.address then Except.error JsError.referenceError
    else Except.ok resolved

/-- Translation of signProposal (src/index.js lines 221-287), keeping
the source order of effects: resolve the domain, pack the fields, build
the message, apply the domain override, then sign.  The result exposes
the domain and message handed to the external signing capability
together with the signature the source returns. -/
def signProposal (env : Env) (p : Proposal) : Except JsError (Eip712Domain × UserOpMessage × String) := do
  let op := toUserOperation p
  let resolved ← getDomain env op.sender p.chain
  let gasFees ← packGasLimits op
  let accountGasLimits ← packAccountGasLimits op
  let paymasterAndData ← packPaymasterAndData op
  let initCode := packInitCode op
  let message : UserOpMessage :=
    { sender := op.sender,
      nonce := op.nonce,
      initCode := initCode,
      callData := op.callData,
      accountGasLimits := accountGasLimits,
      preVerificationGas := op.preVerificationGas,
      gasFees := gasFees,
      paymasterAndData := paymasterAndData,
      validUntil := 0,
      validAfter := 0 }
  let domain ← domainOverride resolved op.nonce
  let sig ← env.signTypedData domain message
  Except.ok (domain, message, sig)

/-- The 24 hour window of the retrieval query, with timestamps measured
in hours. -/
def interval24Hours : Nat := 24

/-- Insert a proposal into a list sorted by ascending creation time. -/
def insertByCreatedAt (p : Proposal) : List Proposal → List Proposal
  | [] => [p]
  | q :: qs =>
    if p.created_at ≤ q.created_at then p :: q :: qs
    else q :: insertByCreatedAt p qs

/-- Sort proposals by ascending creation time (ORDER BY created_at ASC). -/
def sortByCreatedAt : List Proposal → List Proposal
  | [] => []
  | p :: ps => insertByCreatedAt p (sortByCreatedAt ps)

/-- Relational semantics of the SELECT statement of getRecentProposals
(src/index.js lines 124-135) over list-modelled tables: keep proposals
of the target sender created within the last 24 hours whose hash has no
signatures row by the querying signer, ordered by ascending creation
time. -/
def queryRecentProposals (props : List Proposal) (sigs : List SigRow) (now : Nat) : List Proposal :=
  sortByCreatedAt (props.filter (fun p =>
    p.sender == jsToLower targetSender &&
    decide (now ≤ p.created_at + interval24Hours) &&
    !(sigs.any (fun s => s.signer == jsToLower aiSigner && s.hash == p.userOpHash))))

/-- The outcome of a JavaScript async function call: a returned value
or a thrown error. -/
inductive JsOutcome (α : Type) where
  | ret (a : α)
  | thrown (e : JsError)
deriving DecidableEq

/-- The retry loop of getRecentProposals (src/index.js lines 122-149):
fuel is the number of remaining iterations, i the loop index, and the
final list records the setTimeout delays (in milliseconds) that were
awaited, in order.  When the fuel runs out without a successful query
the JavaScript function returns undefined (modelled as ret none). -/
def grpGo (attempt : Nat → Except JsError (List Proposal)) :
    Nat → Nat → List Nat → JsOutcome (Option (List Proposal)) × List Nat
  | 0, _, sleeps => (JsOutcome.ret none, sleeps)
  | fuel + 1, i, sleeps =>
    match attempt i with
    | Except.ok rows => (JsOutcome.ret (some rows), sleeps)
    | Except.error e =>
      if fuel = 0 then (JsOutcome.thrown e, sleeps)
      else grpGo attempt fuel (i + 1) (sleeps ++ [1000 * (i + 1)])

/-- Translation of getRecentProposals (src/index.js lines 121-150) over
an abstract per-attempt query outcome; the default retries argument at
the call site is 3. -/
def getRecentProposals (attempt : Nat → Except JsError (List Proposal)) (retries : Nat) :
    JsOutcome (Option (List Proposal)) × List Nat :=
  grpGo attempt retries 0 []

/-- The vote property name destructured from the oracle decision. -/
def voteKey : String := "vote"

/-- The reason property name destructured from the oracle decision. -/
def reasonKey : String := "reason"

/-- The per-proposal status strings pushed by the handler loop. -/
inductive Status where
  | success
  | rejected
  | error
deriving DecidableEq

/-- One entry of the results array of the handler loop. -/
structure VoteResult where
  hash : String
  status : Status
  signature : Option String

/-- Translation of one iteration of the handler loop (src/index.js
lines 50-103).  The result is the pushed results entry, the signatures
table after the iteration, and an instrumentation flag telling which
branch of the line 57 conditional ran (none when getNaniVote threw
before the branch).  Any thrown error is caught by the per-proposal
catch, which pushes an error entry and leaves the table unchanged. -/
def processOne (env : Env) (store : List SigRow) (p : Proposal) :
    VoteResult × List SigRow × Option Bool :=
  match (getNaniVote (env.oracle p)).fst with
  | Except.error _ =>
    ({ hash := p.userOpHash, status := Status.error, signature := none }, store, none)
  | Except.ok v =>
    let vote := JSVal.getField v voteKey
    let reason := JSVal.getField v reasonKey
    if jsTruthy vote then
      match signProposal env p with
      | Except.error _ =>
        ({ hash := p.userOpHash, status := Status.error, signature := none }, store, some true)
      | Except.ok (_, _, sig) =>
        let row : SigInput :=
          { signer := env.accountAddress,
            account := p.sender,
            hash := p.userOpHash,
            signature := sig,
            reason := reason }
        match env.insertErr row with
        | some _ =>
          ({ hash := p.userOpHash, status := Status.error, signature := none }, store, some true)
        | none =>
          ({ hash := p.userOpHash, status := Status.success, signature := some sig },
            addSignature store row, some true)
    else
      let row : SigInput :=
        { signer := env.accountAddress,
          account := p.sender,
          hash := p.userOpHash,
          signature := emptyStr,
          reason := reason }
      match env.insertErr row with
      | some _ =>
        ({ hash := p.userOpHash, status := Status.error, signature := none }, store, some false)
      | none =>
        ({ hash := p.userOpHash, status := Status.rejected, signature := none },
          addSignature store row, some false)

/-- The handler loop over the whole batch (src/index.js lines 50-103):
proposals are processed strictly in order and every iteration pushes
exactly one results entry. -/
def processProposals (env : Env) (store : List SigRow) :
    List Proposal → List VoteResult × List SigRow
  | [] => ([], store)
  | p :: ps =>
    let one := processOne env store p
    let rest := processProposals env one.snd.fst ps
    (one.fst :: rest.fst, rest.snd)

/-- The HTTP envelope of one batch run: a 200 response with the results
array, or a 500 response when batch-level initialisation failed. -/
inductive BatchOutcome where
  | ok (results : List VoteResult) (store : List SigRow)
  | serverError (store : List SigRow)

/-- Translation of the vote handler (src/index.js lines 39-116): the
initial retrieval runs with 3 retries; a thrown retrieval error (or an
undefined proposals list) reaches the outer catch and yields the 500
envelope with no proposal processed, otherwise the loop runs over every
retrieved proposal.  The second component is the list of awaited
backoff delays. -/
def voteHandler (env : Env) (store : List SigRow)
    (attempt : Nat → Except JsError (List Proposal)) : BatchOutcome × List Nat :=
  match getRecentProposals attempt 3 with
  | (JsOutcome.thrown _, sleeps) => (BatchOutcome.serverError store, sleeps)
  | (JsOutcome.ret none, sleeps) => (BatchOutcome.serverError store, sleeps)
  | (JsOutcome.ret (some ps), sleeps) =>
    let r := processProposals env store ps
    (BatchOutcome.ok r.fst r.snd, sleeps)

/-- The 16-byte (32 hex digit) zero-padded big-endian encoding of a
value, as produced by a successful padHex of its minimal hex digits. -/
def pad16 (n : Nat) : Hex :=
  List.replicate (32 - (toHexDigits n).length) 0 ++ toHexDigits n

/-- The domain component handed to the signing capability, when
signProposal returned at all. -/
def signedDomain (r : Except JsError (Eip712Domain × UserOpMessage × String)) : Option Eip712Domain :=
  match r with
  | Except.ok (d, _, _) => some d
  | _ => none

/-- Number of signatures rows of a given signer and hash. -/
def countPair (store : List SigRow) (signer hash : String) : Nat :=
  (store.filter (fun r => r.signer == signer && r.hash == hash)).length

/-- An oracle response body that is the JSON literal false. -/
def bodyFalse : String := "false"

/-- An oracle response body that is the JSON literal 0. -/
def bodyZero : String := "0"

/-- An oracle response body that is the JSON literal true. -/
def bodyTrue : String := "true"

/-- An oracle response body that is the JSON literal 1. -/
def bodyOne : String := "1"

/-- An oracle response body that does not parse as JSON. -/
def bodyNope : String := "nope"

/-- An oracle response body rejecting the proposal with a reason. -/
def bodyVoteFalseObj : String := "\x7b\"vote\":false,\"reason\":\"no\"\x7d"

/-- An oracle response body whose vote property is the non-empty
string false, which is truthy in JavaScript. -/
def bodyVoteStrFalse : String := "\x7b\"vote\":\"false\"\x7d"

/-- An oracle answering every attempt with the literal false. -/
def oracleConstFalse : String → String := fun _ => bodyFalse

/-- An oracle answering every attempt with the literal 0. -/
def oracleConstZero : String → String := fun _ => bodyZero

/-- An oracle answering every attempt with the literal true. -/
def oracleConstTrue : String → String := fun _ => bodyTrue

/-- An oracle answering every attempt with the literal 1. -/
def oracleConstOne : String → String := fun _ => bodyOne

/-- A fixed on-chain-resolved domain used by the sample environments. -/
def sampleDomain : Eip712Domain :=
  { name := "NaniAccount", version := "1.0.0", chainId := 1,
    verifyingContract := targetSender }

/-- A fixed signature string returned by the sample signing capability. -/
def sampleSignature : String := "0xsigned"

/-- Hash of the sample proposal whose oracle response is unparsable. -/
def hashE : String := "0xE1"

/-- Hash of the sample proposal whose oracle response rejects. -/
def hashR : String := "0xR2"

/-- The reason string of the rejecting sample response. -/
def strNo : String := "no"

/-- A benign proposal template: target sender, zero nonce, small gas
values, mainnet chain. -/
def baseProposal : Proposal :=
  { sender := targetSender,
    nonce := 0,
    callData := emptyStr,
    verificationGasLimit := 1,
    callGasLimit := 1,
    preVerificationGas := 0,
    maxFeePerGas := 1,
    maxPriorityFeePerGas := 1,
    factory := none,
    factoryData := none,
    paymaster := none,
    paymasterVerificationGasLimit := none,
    paymasterPostOpGasLimit := none,
    paymasterData := none,
    chain := chainEth,
    content := emptyStr,
    userOpHash := hashE,
    created_at := 0 }

/-- The sample proposal whose oracle response is unparsable. -/
def pErrP : Proposal := baseProposal

/-- The sample proposal whose oracle response rejects. -/
def pRejP : Proposal := { baseProposal with userOpHash := hashR }

/-- A benign environment whose oracle answers unparsably for the hashE
proposal and with a rejecting decision for every other proposal. -/
def envMix : Env :=
  { accountAddress := aiSigner,
    oracle := fun p _ => if p.userOpHash == hashE then bodyNope else bodyVoteFalseObj,
    rpcDomain := fun _ _ => Except.ok sampleDomain,
    signTypedData := fun _ _ => Except.ok sampleSignature,
    insertErr := fun _ => none }

/-- The addSignature input of the rejecting sample iteration. -/
def rejRowInput : SigInput :=
  { signer := aiSigner,
    account := targetSender,
    hash := hashR,
    signature := emptyStr,
    reason := some (JSVal.str strNo) }

/-- An environment whose oracle always answers with a decision whose
vote property is the non-empty string false. -/
def envStrFalse : Env :=
  { accountAddress := aiSigner,
    oracle := fun _ _ => bodyVoteStrFalse,
    rpcDomain := fun _ _ => Except.ok sampleDomain,
    signTypedData := fun _ _ => Except.ok sampleSignature,
    insertErr := fun _ => none }

/-- The parsed decision of bodyVoteStrFalse. -/
def vStrFalse : JSVal := JSVal.obj [(voteKey, JSVal.str bodyFalse)]

/-- A proposal carrying the remote-validator derived key in the top 24
bytes of its nonce. -/
def pRemoteKey : Proposal := { baseProposal with nonce := getValidatorKey rvAddress * 2 ^ 64 }

/-- A proposal carrying a different nonzero key in the top 24 bytes of
its nonce. -/
def pOtherKey : Proposal := { baseProposal with nonce := 5 * 2 ^ 64 }

/-- A sample addSignature input. -/
def sampleSig : SigInput :=
  { signer := aiSigner,
    account := targetSender,
    hash := hashR,
    signature := emptyStr,
    reason := none }

/-- A proposals-table row matching the retrieval filter. -/
def pQ : Proposal := { baseProposal with created_at := 5 }

/-- A signatures-table row of the querying signer for a different hash. -/
def rowX : SigRow :=
  { signer := jsToLower aiSigner,
    account := none,
    hash := jsToLower hashR,
    signature := emptyStr,
    content := none }

/-- A user operation with small gas fields. -/
def opSmall : UserOperation := toUserOperation baseProposal

/-- A user operation whose verificationGasLimit does not fit 128 bits. -/
def opBig : UserOperation := { opSmall with verificationGasLimit := 2 ^ 128 }

/-- A user operation with a paymaster and default paymaster fields. -/
def opPm : UserOperation := { opSmall with paymaster := some [1, 2] }

/-- A query attempt that always fails with a database error. -/
def attemptFailDb : Nat → Except JsError (List Proposal) := fun _ => Except.error JsError.db

/-- A query attempt that always fails with an rpc error. -/
def attemptFailRpc : Nat → Except JsError (List Proposal) := fun _ => Except.error JsError.rpc

/-- A leading zero digit does not change the value of hex data. -/
theorem fromHexDigits_cons_zero (ds : Hex) : fromHexDigits (0 :: ds) = fromHexDigits ds := by
  simp [fromHexDigits]

/-- Leading zero padding does not change the value of hex data. -/
theorem fromHexDigits_replicate_zero (k : Nat) (ds : Hex) :
    fromHexDigits (List.replicate k 0 ++ ds) = fromHexDigits ds := by
  induction k with
  | zero => simp
  | succ m ih =>
    have : List.replicate (m + 1) 0 ++ ds = 0 :: (List.replicate m 0 ++ ds) := by
      simp [List.replicate_succ]
    rw [this, fromHexDigits_cons_zero, ih]

/-- Appending one digit multiplies the value by 16 and adds the digit. -/
theorem fromHexDigits_append_digit (ds : Hex) (d : Nat) :
    fromHexDigits (ds ++ [d]) = 16 * fromHexDigits ds + d := by
  simp [fromHexDigits, List.foldl_append]

/-- The fuel-indexed minimal hex digits evaluate back to the input. -/
theorem toHexDigitsAux_value :
    ∀ fuel n, n < fuel → fromHexDigits (toHexDigitsAux fuel n) = n := by
  intro fuel
  induction fuel with
  | zero => intro n h; omega
  | succ f ih =>
    intro n h
    by_cases h16 : n < 16
    · simp [toHexDigitsAux, h16, fromHexDigits]
    · have hd : n / 16 < n := Nat.div_lt_self (by omega) (by omega)
      have hf : n / 16 < f := by omega
      rw [toHexDigitsAux, if_neg h16, fromHexDigits_append_digit, ih _ hf]
      omega

/-- A value below the k-digit bound has at most k minimal hex digits. -/
theorem toHexDigitsAux_length_le :
    ∀ fuel k n, n < fuel → n < 16 ^ k → 1 ≤ k → (toHexDigitsAux fuel n).length ≤ k := by
  intro fuel
  induction fuel with
  | zero => intro k n h _ _; omega
  | succ f ih =>
    intro k n h hk h1
    by_cases h16 : n < 16
    · rw [toHexDigitsAux, if_pos h16]
      simpa using h1
    · have hd : n / 16 < n := Nat.div_lt_self (by omega) (by omega)
      rcases k with _ | k
      · omega
      rcases k with _ | k
      · simp [pow_succ, pow_zero] at hk
        omega
      · have hk2 : n / 16 < 16 ^ (k + 1) := by
          rw [Nat.div_lt_iff_lt_mul (by omega : 0 < 16)]
          calc n < 16 ^ (k + 2) := hk
            _ = 16 ^ (k + 1) * 16 := by rw [pow_succ]
        have hrec := ih (k + 1) (n / 16) (by omega) hk2 (by omega)
        rw [toHexDigitsAux, if_neg h16]
        simp only [List.length_append, List.length_cons, List.length_nil]
        omega

/-- A value at or above the k-digit bound has more than k minimal hex
digits. -/
theorem toHexDigitsAux_length_lower :
    ∀ fuel k n, n < fuel → 16 ^ k ≤ n → k + 1 ≤ (toHexDigitsAux fuel n).length := by
  intro fuel
  induction fuel with
  | zero => intro k n h _; omega
  | succ f ih =>
    intro k n h hk
    by_cases h16 : n < 16
    · have hk0 : k = 0 := by
        by_contra hne
        have h1k : 1 ≤ k := by omega
        have : 16 ^ 1 ≤ 16 ^ k := Nat.pow_le_pow_right (by omega) h1k
        simp [pow_one] at this
        omega
      subst hk0
      rw [toHexDigitsAux, if_pos h16]
      simp
    · have hd : n / 16 < n := Nat.div_lt_self (by omega) (by omega)
      rw [toHexDigitsAux, if_neg h16]
      rcases k with _ | k
      · simp only [List.length_append, List.length_cons, List.length_nil]
        omega
      · have hk2 : 16 ^ k ≤ n / 16 := by
          rw [Nat.le_div_iff_mul_le (by omega : 0 < 16)]
          calc 16 ^ k * 16 = 16 ^ (k + 1) := by rw [pow_succ]
            _ ≤ n := hk
        have hrec := ih k (n / 16) (by omega) hk2
        simp only [List.length_append, List.length_cons, List.length_nil]
        omega

/-- The minimal hex digits of a value evaluate back to the value. -/
theorem fromHexDigits_toHexDigits (n : Nat) : fromHexDigits (toHexDigits n) = n :=
  toHexDigitsAux_value (n + 1) n (by omega)

/-- The 128-bit bound is the 32-hex-digit bound. -/
theorem pow128_eq : (2 : Nat) ^ 128 = 16 ^ 32 := by norm_num

/-- A value fitting 128 bits has at most 32 minimal hex digits. -/
theorem toHexDigits_length_le (n : Nat) (h : n < 2 ^ 128) : (toHexDigits n).length ≤ 32 :=
  toHexDigitsAux_length_le (n + 1) 32 n (by omega) (by rw [← pow128_eq]; exact h) (by omega)

/-- A value not fitting 128 bits has at least 33 minimal hex digits. -/
theorem toHexDigits_length_gt (n : Nat) (h : 2 ^ 128 ≤ n) : 33 ≤ (toHexDigits n).length :=
  toHexDigitsAux_length_lower (n + 1) 32 n (by omega) (by rw [← pow128_eq]; exact h)

/-- padHex to 16 bytes succeeds on a value fitting 128 bits and yields
its 32-digit zero-padded encoding. -/
theorem padHex16_ok (n : Nat) (h : n < 2 ^ 128) :
    padHex (toHexDigits n) 16 = Except.ok (pad16 n) := by
  have hl := toHexDigits_length_le n h
  rw [padHex, if_neg (by omega)]
  rfl

/-- padHex to 16 bytes throws on a value not fitting 128 bits. -/
theorem padHex16_err (n : Nat) (h : 2 ^ 128 ≤ n) :
    padHex (toHexDigits n) 16 = Except.error JsError.sizeExceedsPadding := by
  have hl := toHexDigits_length_gt n h
  rw [padHex, if_pos (by omega)]

/-- The padded encoding of a value fitting 128 bits is 32 digits. -/
theorem pad16_length (n : Nat) (h : n < 2 ^ 128) : (pad16 n).length = 32 := by
  have hl := toHexDigits_length_le n h
  simp only [pad16, List.length_append, List.length_replicate]
  omega

/-- The padded encoding evaluates back to the value. -/
theorem fromHexDigits_pad16 (n : Nat) : fromHexDigits (pad16 n) = n := by
  rw [pad16, fromHexDigits_replicate_zero, fromHexDigits_toHexDigits]

/-- Bind of a successful Except reduces to the continuation. -/
theorem exceptBind_ok {α β : Type} (x : α) (f : α → Except JsError β) :
    (Except.ok x >>= f) = f x := rfl

/-- Bind of a failed Except propagates the error. -/
theorem exceptBind_err {α β : Type} (e : JsError) (f : α → Except JsError β) :
    ((Except.error e : Except JsError α) >>= f) = Except.error e := rfl

/-- C6: for every user operation whose verificationGasLimit and
callGasLimit each fit in 128 bits, packAccountGasLimits returns exactly
32 bytes (64 hex digits) whose left 16 bytes are the big-endian
zero-padded verificationGasLimit and whose right 16 bytes are the
big-endian zero-padded callGasLimit, in that order. -/
theorem nani_C6_pack_account_gas_limits (op : UserOperation)
    (hv : op.verificationGasLimit < 2 ^ 128) (hc : op.callGasLimit < 2 ^ 128) :
    packAccountGasLimits op =
      Except.ok (pad16 op.verificationGasLimit ++ pad16 op.callGasLimit)
    ∧ (pad16 op.verificationGasLimit ++ pad16 op.callGasLimit).length = 64
    ∧ (pad16 op.verificationGasLimit ++ pad16 op.callGasLimit).take 32 =
        pad16 op.verificationGasLimit
    ∧ (pad16 op.verificationGasLimit ++ pad16 op.callGasLimit).drop 32 =
        pad16 op.callGasLimit
    ∧ fromHexDigits (pad16 op.verificationGasLimit) = op.verificationGasLimit
    ∧ fromHexDigits (pad16 op.callGasLimit) = op.callGasLimit := by
  have hv32 := pad16_length op.verificationGasLimit hv
  have hc32 := pad16_length op.callGasLimit hc
  refine ⟨?_, ?_, ?_, ?_, fromHexDigits_pad16 _, fromHexDigits_pad16 _⟩
  · simp only [packAccountGasLimits, padHex16_ok op.verificationGasLimit hv,
      padHex16_ok op.callGasLimit hc, exceptBind_ok]
  · simp only [List.length_append, hv32, hc32]
  · rw [← hv32]
    exact List.take_left _ _
  · rw [← hv32]
    exact List.drop_left _ _

/-- C6 witness: the theorem applied to the small sample operation. -/
theorem nani_C6_witness :
    packAccountGasLimits opSmall =
      Except.ok (pad16 opSmall.verificationGasLimit ++ pad16 opSmall.callGasLimit)
    ∧ (pad16 opSmall.verificationGasLimit ++ pad16 opSmall.callGasLimit).length = 64 :=
  ⟨(nani_C6_pack_account_gas_limits opSmall (by decide) (by decide)).1,
   (nani_C6_pack_account_gas_limits opSmall (by decide) (by decide)).2.1⟩

/-- C7: packPaymasterAndData returns empty bytes exactly when no
paymaster is set; with a paymaster and gas limits fitting 128 bits it
returns the paymaster followed by the two 16-byte padded gas limits
(defaulting to zero) and the paymaster data (defaulting to empty). -/
theorem nani_C7_pack_paymaster_and_data (op : UserOperation) :
    (packPaymasterAndData op = Except.ok [] ↔ op.paymaster = none)
    ∧ (∀ pm, op.paymaster = some pm →
        op.paymasterVerificationGasLimit.getD 0 < 2 ^ 128 →
        op.paymasterPostOpGasLimit.getD 0 < 2 ^ 128 →
        packPaymasterAndData op =
          Except.ok (pm ++ pad16 (op.paymasterVerificationGasLimit.getD 0) ++
            pad16 (op.paymasterPostOpGasLimit.getD 0) ++ op.paymasterData.getD [])) := by
  constructor
  · constructor
    · intro h
      cases hp : op.paymaster with
      | none => rfl
      | some pm =>
        exfalso
        by_cases ha : op.paymasterVerificationGasLimit.getD 0 < 2 ^ 128
        · by_cases hb : op.paymasterPostOpGasLimit.getD 0 < 2 ^ 128
          · simp only [packPaymasterAndData, hp,
              padHex16_ok (op.paymasterVerificationGasLimit.getD 0) ha,
              padHex16_ok (op.paymasterPostOpGasLimit.getD 0) hb,
              exceptBind_ok] at h
            have he := Except.ok.inj h
            have hlen : (pm ++ pad16 (op.paymasterVerificationGasLimit.getD 0) ++
                pad16 (op.paymasterPostOpGasLimit.getD 0) ++
                op.paymasterData.getD []).length = 0 := by
              rw [he]
              rfl
            rw [List.length_append, List.length_append, List.length_append,
              pad16_length _ ha, pad16_length _ hb] at hlen
            omega
          · simp only [packPaymasterAndData, hp,
              padHex16_ok (op.paymasterVerificationGasLimit.getD 0) ha,
              padHex16_err (op.paymasterPostOpGasLimit.getD 0) (by omega),
              exceptBind_ok, exceptBind_err] at h
            exact Except.noConfusion h
        · simp only [packPaymasterAndData, hp,
            padHex16_err (op.paymasterVerificationGasLimit.getD 0) (by omega),
            exceptBind_err] at h
          exact Except.noConfusion h
    · intro h
      simp only [packPaymasterAndData, h]
  · intro pm hp ha hb
    simp only [packPaymasterAndData, hp,
      padHex16_ok (op.paymasterVerificationGasLimit.getD 0) ha,
      padHex16_ok (op.paymasterPostOpGasLimit.getD 0) hb, exceptBind_ok]

/-- C7 witness: the theorem applied to a sample operation with and a
sample operation without a paymaster. -/
theorem nani_C7_witness :
    packPaymasterAndData opPm =
      Except.ok ([1, 2] ++ pad16 (opPm.paymasterVerificationGasLimit.getD 0) ++
        pad16 (opPm.paymasterPostOpGasLimit.getD 0) ++ opPm.paymasterData.getD [])
    ∧ (packPaymasterAndData opSmall = Except.ok [] ↔ opSmall.paymaster = none) :=
  ⟨(nani_C7_pack_paymaster_and_data opPm).2 [1, 2] rfl (by decide) (by decide),
   (nani_C7_pack_paymaster_and_data opSmall).1⟩

/-- C8 counterexample: a verificationGasLimit of 2 to the 128 makes
packAccountGasLimits raise the pad size error instead of returning a
result, refuting the claim of a silent overflow. -/
theorem nani_C8_counterexample :
    packAccountGasLimits opBig = Except.error JsError.sizeExceedsPadding
    ∧ (packAccountGasLimits opBig).isOk = false :=
  ⟨rfl, rfl⟩

/-- C8 amended: a packed field value of at least 2 to the 128 makes the
packing function throw the pad size-exceeded error (propagated as a
per-proposal failure) rather than silently overflowing the limb. -/
theorem nani_C8_overflow_raises (op : UserOperation) :
    (2 ^ 128 ≤ op.verificationGasLimit ∨ 2 ^ 128 ≤ op.callGasLimit →
      packAccountGasLimits op = Except.error JsError.sizeExceedsPadding)
    ∧ (2 ^ 128 ≤ op.maxPriorityFeePerGas ∨ 2 ^ 128 ≤ op.maxFeePerGas →
      packGasLimits op = Except.error JsError.sizeExceedsPadding) := by
  constructor
  · intro h
    by_cases hv : op.verificationGasLimit < 2 ^ 128
    · have hc : 2 ^ 128 ≤ op.callGasLimit := by
        rcases h with h | h
        · omega
        · exact h
      simp only [packAccountGasLimits, padHex16_ok op.verificationGasLimit hv,
        padHex16_err op.callGasLimit hc, exceptBind_ok, exceptBind_err]
    · simp only [packAccountGasLimits,
        padHex16_err op.verificationGasLimit (by omega), exceptBind_err]
  · intro h
    by_cases hv : op.maxPriorityFeePerGas < 2 ^ 128
    · have hc : 2 ^ 128 ≤ op.maxFeePerGas := by
        rcases h with h | h
        · omega
        · exact h
      simp only [packGasLimits, padHex16_ok op.maxPriorityFeePerGas hv,
        padHex16_err op.maxFeePerGas hc, exceptBind_ok, exceptBind_err]
    · simp only [packGasLimits,
        padHex16_err op.maxPriorityFeePerGas (by omega), exceptBind_err]

/-- C8 witness: the amended theorem applied to the sample operation
with an oversized verificationGasLimit. -/
theorem nani_C8_witness :
    packAccountGasLimits opBig = Except.error JsError.sizeExceedsPadding :=
  (nani_C8_overflow_raises opBig).1 (Or.inl (by decide))

/-- When the first attempt fails the truthiness test, the sent
instruction trace is never the singleton first instruction. -/
theorem getNaniVote_trace_first_failed (oracle : String → String)
    (h1 : attemptValue (makeRequest oracle instr1) = none) :
    (getNaniVote oracle).snd ≠ [instr1] := by
  cases h2 : attemptValue (makeRequest oracle instr2) with
  | some v => simp [getNaniVote, h1, h2]
  | none =>
    cases h3 : attemptValue (makeRequest oracle instr3) with
    | some v => simp [getNaniVote, h1, h2, h3]
    | none => simp [getNaniVote, h1, h2, h3]

/-- C3 counterexample: a first response body that is the JSON literal
false parses as JSON, yet getNaniVote does not return it and performs
further attempts (three in all, ending in the format error), refuting
the claim that a parsing first response is returned with no further
attempts. -/
theorem nani_C3_counterexample :
    jsonParse bodyFalse = some (JSVal.bool false)
    ∧ (getNaniVote oracleConstFalse).snd.length = 3
    ∧ (getNaniVote oracleConstFalse).fst = Except.error JsError.evalFormat
    ∧ (getNaniVote oracleConstFalse).snd ≠ [instr1] := by
  refine ⟨rfl, rfl, rfl, ?_⟩
  intro h
  exact absurd (congrArg List.length h) (by decide)

/-- C3 amended: getNaniVote makes at most 3 attempts, the instructions
sent are always an initial run of the three source instruction texts,
a first response parsing to a JS-truthy value is returned unmodified
with no further attempt, and three unparsable responses raise the
format error after exactly the three attempts. -/
theorem nani_C3_retry_protocol (oracle : String → String) :
    (getNaniVote oracle).snd.length ≤ 3
    ∧ ((getNaniVote oracle).snd = [instr1] ∨ (getNaniVote oracle).snd = [instr1, instr2] ∨
        (getNaniVote oracle).snd = [instr1, instr2, instr3])
    ∧ (∀ v, jsonParse (oracle instr1) = some v → v.truthy = true →
        getNaniVote oracle = (Except.ok v, [instr1]))
    ∧ (jsonParse (oracle instr1) = none → jsonParse (oracle instr2) = none →
        jsonParse (oracle instr3) = none →
        getNaniVote oracle = (Except.error JsError.evalFormat, [instr1, instr2, instr3])) := by
  refine ⟨?_, ?_, ?_, ?_⟩
  · cases h1 : attemptValue (makeRequest oracle instr1) with
    | some v => simp [getNaniVote, h1]
    | none =>
      cases h2 : attemptValue (makeRequest oracle instr2) with
      | some v => simp [getNaniVote, h1, h2]
      | none =>
        cases h3 : attemptValue (makeRequest oracle instr3) with
        | some v => simp [getNaniVote, h1, h2, h3]
        | none => simp [getNaniVote, h1, h2, h3]
  · cases h1 : attemptValue (makeRequest oracle instr1) with
    | some v => simp [getNaniVote, h1]
    | none =>
      cases h2 : attemptValue (makeRequest oracle instr2) with
      | some v => simp [getNaniVote, h1, h2]
      | none =>
        cases h3 : attemptValue (makeRequest oracle instr3) with
        | some v => simp [getNaniVote, h1, h2, h3]
        | none => simp [getNaniVote, h1, h2, h3]
  · intro v hv ht
    have hmr : attemptValue (makeRequest oracle instr1) = some v := by
      simp [attemptValue, makeRequest, hv, ht]
    simp [getNaniVote, hmr]
  · intro h1 h2 h3
    have a1 : attemptValue (makeRequest oracle instr1) = none := by
      simp [attemptValue, makeRequest, h1]
    have a2 : attemptValue (makeRequest oracle instr2) = none := by
      simp [attemptValue, makeRequest, h2]
    have a3 : attemptValue (makeRequest oracle instr3) = none := by
      simp [attemptValue, makeRequest, h3]
    simp [getNaniVote, a1, a2, a3]

/-- C3 witness: the amended theorem applied to an oracle answering the
JSON literal true at once. -/
theorem nani_C3_witness :
    getNaniVote oracleConstTrue = (Except.ok (JSVal.bool true), [instr1])
    ∧ (getNaniVote oracleConstTrue).snd.length ≤ 3 :=
  ⟨(nani_C3_retry_protocol oracleConstTrue).2.2.1 (JSVal.bool true) rfl rfl,
   (nani_C3_retry_protocol oracleConstTrue).1⟩

/-- C5 counterexample: the body 0 parses as JSON, yet the Evaluator
treats all three such attempts as failures and raises the format
error, refuting parseability as the sole success criterion. -/
theorem nani_C5_counterexample :
    jsonParse bodyZero = some (JSVal.num 0 0)
    ∧ (getNaniVote oracleConstZero).fst = Except.error JsError.evalFormat
    ∧ (getNaniVote oracleConstZero).snd.length = 3 :=
  ⟨rfl, rfl, rfl⟩

/-- C5 amended: an attempt is treated as successful exactly when its
body parses as JSON to a JS-truthy value, and beyond that truthiness
test the parsed value is returned without any schema validation. -/
theorem nani_C5_success_criterion (oracle : String → String) :
    ((getNaniVote oracle).snd = [instr1] ↔
      ∃ v, jsonParse (oracle instr1) = some v ∧ v.truthy = true)
    ∧ (∀ v, jsonParse (oracle instr1) = some v → v.truthy = true →
        (getNaniVote oracle).fst = Except.ok v) := by
  constructor
  · constructor
    · intro h
      cases hmr : jsonParse (oracle instr1) with
      | none =>
        have a1 : attemptValue (makeRequest oracle instr1) = none := by
          simp [attemptValue, makeRequest, hmr]
        exact absurd h (getNaniVote_trace_first_failed oracle a1)
      | some w =>
        by_cases ht : w.truthy
        · exact ⟨w, rfl, ht⟩
        · have a1 : attemptValue (makeRequest oracle instr1) = none := by
            simp [attemptValue, makeRequest, hmr, ht]
          exact absurd h (getNaniVote_trace_first_failed oracle a1)
    · rintro ⟨v, hv, ht⟩
      have hmr : attemptValue (makeRequest oracle instr1) = some v := by
        simp [attemptValue, makeRequest, hv, ht]
      simp [getNaniVote, hmr]
  · intro v hv ht
    have hmr : attemptValue (makeRequest oracle instr1) = some v := by
      simp [attemptValue, makeRequest, hv, ht]
    simp [getNaniVote, hmr]

/-- C5 witness: the amended theorem applied to an oracle answering the
JSON literal 1 at once. -/
theorem nani_C5_witness :
    (getNaniVote oracleConstOne).fst = Except.ok (JSVal.num 1 0)
    ∧ (getNaniVote oracleConstOne).snd = [instr1] :=
  ⟨(nani_C5_success_criterion oracleConstOne).2 (JSVal.num 1 0) rfl rfl,
   ((nani_C5_success_criterion oracleConstOne).1).mpr ⟨JSVal.num 1 0, rfl, rfl⟩⟩

/-- Membership is preserved by ordered insertion. -/
theorem mem_insertByCreatedAt (p q : Proposal) (l : List Proposal) :
    q ∈ insertByCreatedAt p l ↔ q = p ∨ q ∈ l := by
  induction l with
  | nil => simp [insertByCreatedAt]
  | cons r rs ih =>
    by_cases h : p.created_at ≤ r.created_at
    · simp [insertByCreatedAt, h]
    · simp [insertByCreatedAt, h, ih]
      tauto

/-- Membership is preserved by the creation-time sort. -/
theorem mem_sortByCreatedAt (q : Proposal) (l : List Proposal) :
    q ∈ sortByCreatedAt l ↔ q ∈ l := by
  induction l with
  | nil => simp [sortByCreatedAt]
  | cons r rs ih => simp [sortByCreatedAt, mem_insertByCreatedAt, ih]

/-- C2 counterexample: invoking addSignature twice with the same
(signer, hash) input leaves two records for the pair and changes the
store, refuting both the at-most-one-record invariant of the store and
the claim that reprocessing is a no-op. -/
theorem nani_C2_counterexample :
    (addSignature (addSignature [] sampleSig) sampleSig).length = 2
    ∧ countPair (addSignature (addSignature [] sampleSig) sampleSig)
        (jsToLower sampleSig.signer) (jsToLower sampleSig.hash) = 2
    ∧ addSignature (addSignature [] sampleSig) sampleSig ≠ addSignature [] sampleSig := by
  refine ⟨rfl, rfl, ?_⟩
  intro h
  exact absurd (congrArg List.length h) (by decide)

/-- C2 amended: addSignature performs an unconditional insert, so every
call grows the store by one record even for a pair that already has
one; at most one record per pair arises only upstream, because the
retrieval query excludes every proposal whose hash already has a
record by the querying signer. -/
theorem nani_C2_store_behavior :
    (∀ store sig, (addSignature store sig).length = store.length + 1)
    ∧ (∀ props sigs now p, p ∈ queryRecentProposals props sigs now →
        ∀ s, s ∈ sigs → ¬(s.signer = jsToLower aiSigner ∧ s.hash = p.userOpHash)) := by
  constructor
  · intro store sig
    simp [addSignature]
  · intro props sigs now p hp s hs hcon
    rw [queryRecentProposals, mem_sortByCreatedAt, List.mem_filter] at hp
    have hf := hp.2
    simp only [Bool.and_eq_true, Bool.not_eq_true', List.any_eq_false] at hf
    have hns := hf.2 s hs
    rcases hcon with ⟨e1, e2⟩
    simp [e1, e2] at hns

/-- C2 witness: the amended theorem applied to a concrete store insert
and a concrete retrieval instance. -/
theorem nani_C2_witness :
    (addSignature ([] : List SigRow) sampleSig).length = ([] : List SigRow).length + 1
    ∧ ¬(rowX.signer = jsToLower aiSigner ∧ rowX.hash = pQ.userOpHash) :=
  ⟨nani_C2_store_behavior.1 [] sampleSig,
   nani_C2_store_behavior.2 [pQ] [rowX] 0 pQ (by decide) rowX (List.mem_singleton.mpr rfl)⟩

/-- One unfolding of the retry loop at its first attempt. -/
theorem grpGo_three_errors (attempt : Nat → Except JsError (List Proposal))
    (e0 e1 e2 : JsError) (h0 : attempt 0 = Except.error e0)
    (h1 : attempt 1 = Except.error e1) (h2 : attempt 2 = Except.error e2) :
    grpGo attempt 3 0 [] = (JsOutcome.thrown e2, [1000, 2000]) := by
  have u3 : grpGo attempt 3 0 [] = grpGo attempt 2 1 [1000] := by
    rw [show grpGo attempt 3 0 ([] : List Nat) =
        (match attempt 0 with
         | Except.ok rows => (JsOutcome.ret (some rows), ([] : List Nat))
         | Except.error _ => grpGo attempt 2 1 [1000]) from rfl, h0]
  have u2 : grpGo attempt 2 1 [1000] = grpGo attempt 1 2 [1000, 2000] := by
    rw [show grpGo attempt 2 1 [1000] =
        (match attempt 1 with
         | Except.ok rows => (JsOutcome.ret (some rows), [1000])
         | Except.error _ => grpGo attempt 1 2 [1000, 2000]) from rfl, h1]
  have u1 : grpGo attempt 1 2 [1000, 2000] = (JsOutcome.thrown e2, [1000, 2000]) := by
    rw [show grpGo attempt 1 2 [1000, 2000] =
        (match attempt 2 with
         | Except.ok rows => (JsOutcome.ret (some rows), [1000, 2000])
         | Except.error er => (JsOutcome.thrown er, [1000, 2000])) from rfl, h2]
  rw [u3, u2, u1]

/-- The retry loop returns at once when the first attempt succeeds. -/
theorem grpGo_first_ok (attempt : Nat → Except JsError (List Proposal))
    (rows : List Proposal) (h0 : attempt 0 = Except.ok rows) :
    grpGo attempt 3 0 [] = (JsOutcome.ret (some rows), []) := by
  rw [show grpGo attempt 3 0 ([] : List Nat) =
      (match attempt 0 with
       | Except.ok rs => (JsOutcome.ret (some rs), ([] : List Nat))
       | Except.error _ => grpGo attempt 2 1 [1000]) from rfl, h0]

/-- C9 counterexample: with every attempt failing, the awaited backoff
delays are 1s and 2s only; there is no 3s delay and the delay list is
not 1s, 2s, 3s, refuting the claimed schedule. -/
theorem nani_C9_counterexample :
    getRecentProposals attemptFailDb 3 = (JsOutcome.thrown JsError.db, [1000, 2000])
    ∧ (getRecentProposals attemptFailDb 3).snd ≠ [1000, 2000, 3000]
    ∧ ¬(3000 ∈ (getRecentProposals attemptFailDb 3).snd) :=
  ⟨rfl, by decide, by decide⟩

/-- C9 amended: on transient failure getRecentProposals makes up to 3
attempts with backoff delays of 1s and then 2s between consecutive
attempts; the third consecutive failure propagates the error with no
further delay, and the handler then aborts the whole batch run with
the 500 envelope and an unchanged store. -/
theorem nani_C9_retry_backoff (attempt : Nat → Except JsError (List Proposal))
    (e : Nat → JsError) :
    ((∀ i, i < 3 → attempt i = Except.error (e i)) →
      getRecentProposals attempt 3 = (JsOutcome.thrown (e 2), [1000, 2000])
      ∧ ∀ env store, voteHandler env store attempt = (BatchOutcome.serverError store, [1000, 2000]))
    ∧ (∀ rows, attempt 0 = Except.ok rows →
        getRecentProposals attempt 3 = (JsOutcome.ret (some rows), [])) := by
  constructor
  · intro h
    have hg : getRecentProposals attempt 3 = (JsOutcome.thrown (e 2), [1000, 2000]) :=
      grpGo_three_errors attempt (e 0) (e 1) (e 2)
        (h 0 (by omega)) (h 1 (by omega)) (h 2 (by omega))
    refine ⟨hg, ?_⟩
    intro env store
    simp [voteHandler, hg]
  · intro rows h0
    exact grpGo_first_ok attempt rows h0

/-- C9 witness: the amended theorem applied to an always-failing
attempt function. -/
theorem nani_C9_witness :
    getRecentProposals attemptFailRpc 3 = (JsOutcome.thrown JsError.rpc, [1000, 2000]) :=
  ((nani_C9_retry_backoff attemptFailRpc (fun _ => JsError.rpc)).1 (fun _ _ => rfl)).1

/-- Every proposal of the batch yields exactly one results entry. -/
theorem processProposals_length (env : Env) :
    ∀ ps store, ((processProposals env store ps).fst).length = ps.length := by
  intro ps
  induction ps with
  | nil => intro store; rfl
  | cons p rest ih =>
    intro store
    simp [processProposals, ih]

/-- C4 counterexample: in a two-proposal batch whose first proposal
raises an evaluation exception, the batch finishes with statuses error
and rejected, but the signatures store receives a record only for the
second proposal; processing the failing proposal alone records no
outcome at all, refuting the claim that an outcome is recorded in the
ResultStore whichever branch is taken. -/
theorem nani_C4_counterexample :
    (processProposals envMix [] [pErrP, pRejP]).snd = [normalizeRow rejRowInput]
    ∧ (processProposals envMix [] [pErrP, pRejP]).fst.map VoteResult.status =
        [Status.error, Status.rejected]
    ∧ (processProposals envMix [] [pErrP]).snd = ([] : List SigRow) :=
  ⟨rfl, rfl, rfl⟩

/-- C4 amended: every iteration pushes exactly one results entry whose
hash is the proposal hash; the store receives exactly one new record in
the approved and rejected branches (the rejected record carrying the
empty signature), while an exception leaves the store untouched, is
reported as the error status of that proposal only, and processing of
the remaining proposals always continues (the batch always yields one
entry per proposal). -/
theorem nani_C4_loop (env : Env) (store : List SigRow) (p : Proposal) :
    ((processOne env store p).fst.hash = p.userOpHash
      ∧ ((processOne env store p).fst.status = Status.error →
          (processOne env store p).snd.fst = store)
      ∧ ((processOne env store p).fst.status ≠ Status.error →
          ∃ row, (processOne env store p).snd.fst = store ++ [normalizeRow row]
            ∧ row.hash = p.userOpHash
            ∧ ((processOne env store p).fst.status = Status.rejected →
                row.signature = emptyStr)))
    ∧ (∀ ps, ((processProposals env store ps).fst).length = ps.length) := by
  refine ⟨?_, fun ps => processProposals_length env ps store⟩
  cases hnv : (getNaniVote (env.oracle p)).fst with
  | error e =>
    have hpo : processOne env store p =
        ({ hash := p.userOpHash, status := Status.error, signature := none },
          store, none) := by
      simp only [processOne, hnv]
    rw [hpo]
    exact ⟨rfl, fun _ => rfl, fun h => absurd rfl h⟩
  | ok v =>
    cases hv : jsTruthy (JSVal.getField v voteKey) with
    | true =>
      cases hsp : signProposal env p with
      | error e2 =>
        have hpo : processOne env store p =
            ({ hash := p.userOpHash, status := Status.error, signature := none },
              store, some true) := by
          simp only [processOne, hnv, hv, hsp, if_true]
        rw [hpo]
        exact ⟨rfl, fun _ => rfl, fun h => absurd rfl h⟩
      | ok t =>
        obtain ⟨d, m, sg⟩ := t
        cases hie : env.insertErr
            { signer := env.accountAddress, account := p.sender, hash := p.userOpHash,
              signature := sg, reason := JSVal.getField v reasonKey } with
        | some e3 =>
          have hpo : processOne env store p =
              ({ hash := p.userOpHash, status := Status.error, signature := none },
                store, some true) := by
            simp only [processOne, hnv, hv, hsp, hie, if_true]
          rw [hpo]
          exact ⟨rfl, fun _ => rfl, fun h => absurd rfl h⟩
        | none =>
          have hpo : processOne env store p =
              ({ hash := p.userOpHash, status := Status.success, signature := some sg },
                addSignature store
                  { signer := env.accountAddress, account := p.sender,
                    hash := p.userOpHash, signature := sg,
                    reason := JSVal.getField v reasonKey }, some true) := by
            simp only [processOne, hnv, hv, hsp, hie, if_true]
          rw [hpo]
          refine ⟨rfl, fun h => Status.noConfusion h, fun h => ?_⟩
          exact ⟨⟨env.accountAddress, p.sender, p.userOpHash, sg,
            JSVal.getField v reasonKey⟩,
            rfl, rfl, fun hr => Status.noConfusion hr⟩
    | false =>
      cases hie : env.insertErr
          { signer := env.accountAddress, account := p.sender, hash := p.userOpHash,
            signature := emptyStr, reason := JSVal.getField v reasonKey } with
      | some e3 =>
        have hpo : processOne env store p =
            ({ hash := p.userOpHash, status := Status.error, signature := none },
              store, some false) := by
          simp only [processOne, hnv, hv, hie]
          rfl
        rw [hpo]
        exact ⟨rfl, fun _ => rfl, fun h => absurd rfl h⟩
      | none =>
        have hpo : processOne env store p =
            ({ hash := p.userOpHash, status := Status.rejected, signature := none },
              addSignature store
                { signer := env.accountAddress, account := p.sender,
                  hash := p.userOpHash, signature := emptyStr,
                  reason := JSVal.getField v reasonKey }, some false) := by
          simp only [processOne, hnv, hv, hie]
          rfl
        rw [hpo]
        refine ⟨rfl, fun h => Status.noConfusion h, fun h => ?_⟩
        exact ⟨⟨env.accountAddress, p.sender, p.userOpHash, emptyStr,
          JSVal.getField v reasonKey⟩,
          rfl, rfl, fun _ => rfl⟩

/-- C4 witness: the amended theorem applied to the failing sample
proposal, whose exception leaves the store empty. -/
theorem nani_C4_witness :
    (processOne envMix [] pErrP).snd.fst = ([] : List SigRow)
    ∧ (processOne envMix [] pErrP).fst.hash = pErrP.userOpHash :=
  ⟨(nani_C4_loop envMix [] pErrP).1.2.1 rfl, (nani_C4_loop envMix [] pErrP).1.1⟩

/-- C10: when the oracle decision parses, the line 57 branch is chosen
exactly by JavaScript Boolean coercion of the vote property of the
parsed decision: any truthy vote value takes the signing branch and any
absent or falsy vote value takes the rejection branch, whose recorded
outcome (when the insert succeeds) carries the empty signature. -/
theorem nani_C10_vote_coercion (env : Env) (store : List SigRow) (p : Proposal) (v : JSVal)
    (h : (getNaniVote (env.oracle p)).fst = Except.ok v) :
    (processOne env store p).snd.snd = some (jsTruthy (JSVal.getField v voteKey))
    ∧ (jsTruthy (JSVal.getField v voteKey) = false →
        (processOne env store p).snd.fst = store ∨
        (processOne env store p).snd.fst = store ++ [normalizeRow
          ⟨env.accountAddress, p.sender, p.userOpHash, emptyStr,
            JSVal.getField v reasonKey⟩]) := by
  cases hv : jsTruthy (JSVal.getField v voteKey) with
  | true =>
    cases hsp : signProposal env p with
    | error e2 =>
      have hpo : processOne env store p =
          ({ hash := p.userOpHash, status := Status.error, signature := none },
            store, some true) := by
        simp only [processOne, h, hv, hsp, if_true]
      rw [hpo]
      exact ⟨rfl, fun hf => Bool.noConfusion hf⟩
    | ok t =>
      obtain ⟨d, m, sg⟩ := t
      cases hie : env.insertErr
          { signer := env.accountAddress, account := p.sender, hash := p.userOpHash,
            signature := sg, reason := JSVal.getField v reasonKey } with
      | some e3 =>
        have hpo : processOne env store p =
            ({ hash := p.userOpHash, status := Status.error, signature := none },
              store, some true) := by
          simp only [processOne, h, hv, hsp, hie, if_true]
        rw [hpo]
        exact ⟨rfl, fun hf => Bool.noConfusion hf⟩
      | none =>
        have hpo : processOne env store p =
            ({ hash := p.userOpHash, status := Status.success, signature := some sg },
              addSignature store
                { signer := env.accountAddress, account := p.sender,
                  hash := p.userOpHash, signature := sg,
                  reason := JSVal.getField v reasonKey }, some true) := by
          simp only [processOne, h, hv, hsp, hie, if_true]
        rw [hpo]
        exact ⟨rfl, fun hf => Bool.noConfusion hf⟩
  | false =>
    cases hie : env.insertErr
        { signer := env.accountAddress, account := p.sender, hash := p.userOpHash,
          signature := emptyStr, reason := JSVal.getField v reasonKey } with
    | some e3 =>
      have hpo : processOne env store p =
          ({ hash := p.userOpHash, status := Status.error, signature := none },
            store, some false) := by
        simp only [processOne, h, hv, hie]
        rfl
      rw [hpo]
      exact ⟨rfl, fun _ => Or.inl rfl⟩
    | none =>
      have hpo : processOne env store p =
          ({ hash := p.userOpHash, status := Status.rejected, signature := none },
            addSignature store
              { signer := env.accountAddress, account := p.sender,
                hash := p.userOpHash, signature := emptyStr,
                reason := JSVal.getField v reasonKey }, some false) := by
        simp only [processOne, h, hv, hie]
        rfl
      rw [hpo]
      exact ⟨rfl, fun _ => Or.inr rfl⟩

/-- C10 witness: the theorem applied to a decision whose vote property
is the non-empty string false, which takes the signing branch. -/
theorem nani_C10_witness :
    (processOne envStrFalse [] baseProposal).snd.snd =
      some (jsTruthy (JSVal.getField vStrFalse voteKey))
    ∧ jsTruthy (JSVal.getField vStrFalse voteKey) = true :=
  ⟨(nani_C10_vote_coercion envStrFalse [] baseProposal vStrFalse rfl).1, rfl⟩

/-- C1: evaluating signProposal at a proposal whose nonce carries the
remote-validator derived key shows the code throwing the ReferenceError
of the out-of-scope publicClient instead of signing under the fixed
RemoteValidator domain, while a different nonzero key passes the
on-chain-resolved domain through unchanged. -/
theorem nani_C1_eval :
    getKeyFromNonce pRemoteKey.nonce = getValidatorKey rvAddress
    ∧ getKeyFromNonce pRemoteKey.nonce ≠ 0
    ∧ signProposal envMix pRemoteKey = Except.error JsError.referenceError
    ∧ getKeyFromNonce pOtherKey.nonce ≠ 0
    ∧ getKeyFromNonce pOtherKey.nonce ≠ getValidatorKey rvAddress
    ∧ signedDomain (signProposal envMix pOtherKey) = some sampleDomain :=
  ⟨rfl, by decide, rfl, by decide, by decide, rfl⟩
